import Mathlib

/-!
Verification development for the HRT recorder client.

The application component (App) stores a list of dose events and a body
weight, runs a pharmacokinetic simulation over them, and synchronises the
data with a cloud endpoint.  The definitions below are a shallow embedding
of that code: JavaScript numbers are modelled as rationals (`ℚ`) where the
code only moves them around, and as reals (`ℝ`) inside the numeric engine;
a JavaScript value that may be `null`/`undefined`/non-numeric is modelled
as an `Option`.  The pharmacokinetic engine itself (`logic.ts`) is not
among the available sources — only its call sites are — so the engine
definitions are modelled from the specification and marked as such in
their doc comments.
-/

namespace HRT

/-- Administration route, one constructor per member of the `Route` enum
used by the application. -/
inductive Route where
  | injection
  | oral
  | sublingual
  | gel
  | patchApply
  | patchRemove
deriving DecidableEq, Repr

/-- Ester / substance tag, one constructor per member of the `Ester` enum
(estradiol itself plus the esters listed in the README). -/
inductive Ester where
  | E2
  | valerate
  | benzoate
  | cypionate
  | enanthate
deriving DecidableEq, Repr

/-- Route-specific extras key; the only one used is the patch release
rate in µg/day. -/
inductive ExtraKey where
  | releaseRateUGPerDay
deriving DecidableEq, Repr

/-- Dose event record as stored by the application: opaque string id,
route, timestamp in fractional hours, dose mass in mg, ester tag and an
extras mapping. -/
structure DoseEvent where
  id : String
  route : Route
  timeH : ℚ
  doseMG : ℚ
  ester : Ester
  extras : List (ExtraKey × ℚ)
deriving DecidableEq, Repr

/-! ### Import sanitisation (`sanitizeImportedEvents`, App lines 331-353)

A raw imported array element is an arbitrary JSON value.  The fields the
sanitiser inspects are modelled by their observable outcome in the code:
`isObject` is the `item && typeof item === 'object'` test; `route` is
`some r` exactly when `Object.values(Route).includes(route)`; `timeH` and
`doseMG` are the results of `Number(...)`, with `none` standing for a
value whose conversion is not finite (`NaN`/`±Infinity`) and `some q` for
a finite double; `ester` is `some e` when the ester tag is a valid `Ester`
value; `hasStringId`/`idString` model the `typeof item.id === 'string'`
test; `extras` is `some m` when the extras field is a non-null object. -/
structure RawItem where
  isObject : Bool
  route : Option Route
  timeH : Option ℚ
  doseMG : Option ℚ
  ester : Option Ester
  hasStringId : Bool
  idString : String
  extras : Option (List (ExtraKey × ℚ))
deriving DecidableEq, Repr

/-- One element of the `.map` body of `sanitizeImportedEvents`: returns
`none` (the code returns `null`, later filtered out) for a non-object
item, an invalid route, or a non-finite timestamp; otherwise builds the
sanitised event.  `uuid` stands for the fresh `uuidv4()` used when the
imported id is not a string. -/
def sanitizeItem (uuid : String) (item : RawItem) : Option DoseEvent :=
  if item.isObject = false then none else
  match item.route with
  | none => none
  | some r =>
    match item.timeH with
    | none => none
    | some t =>
      some { id := if item.hasStringId then item.idString else uuid
             route := r
             timeH := t
             doseMG := item.doseMG.getD 0
             ester := item.ester.getD Ester.E2
             extras := item.extras.getD [] }

/-- Sanitiser over a whole imported array (`sanitizeImportedEvents`):
map each element and drop the `null` results. -/
def sanitizeImportedEvents (uuid : String) (raw : List RawItem) : List DoseEvent :=
  raw.filterMap (sanitizeItem uuid)

/-! ### Weight update paths -/

/-- Weight portion of `processImportedData` (App lines 355-383): the
parsed weight is accepted only when it is a number strictly greater than
zero (`typeof parsed.weight === 'number' && parsed.weight > 0`);
otherwise the stored weight is left unchanged (also when the function
throws because nothing valid was imported). -/
def processImportedWeight (old : ℚ) (parsedWeight : Option ℚ) : ℚ :=
  match parsedWeight with
  | some w => if 0 < w then w else old
  | none => old

/-- Weight update used by every cloud path (initial load line 207,
polling line 273, enable-sync line 502, cloud import line 534):
`setWeight(cloudData.weight ?? 70.0)` — the cloud value is taken whenever
it is present, with no sign check, and `70.0` is used when it is
`null`/`undefined`. -/
def cloudWeight (cloudValue : Option ℚ) : ℚ :=
  cloudValue.getD 70

/-! ### Saving an event (`handleSaveEvent`, App lines 413-421) -/

/-- Embedding of `handleSaveEvent`'s state update: if some stored event
has the same id, every such event is replaced in place via `.map`;
otherwise the new event is appended. -/
def handleSaveEvent (prev : List DoseEvent) (e : DoseEvent) : List DoseEvent :=
  if prev.any (fun p => p.id = e.id) then
    prev.map (fun p => if p.id = e.id then e else p)
  else
    prev ++ [e]

/-! ### Periodic cloud polling (App lines 241-289) -/

/-- Metadata of a cloud payload; `exportedAt` is `some s` when the field
is present and a string. -/
structure SyncMeta where
  exportedAt : Option String
deriving DecidableEq, Repr

/-- Cloud payload (`SyncData`) as the polling callback reads it. -/
structure SyncPayload where
  meta : Option SyncMeta
  events : Option (List DoseEvent)
  weight : Option ℚ
deriving DecidableEq, Repr

/-- Local state touched by the polling callback. -/
structure AppState where
  events : List DoseEvent
  weight : ℚ
  lastLocal : String
deriving DecidableEq, Repr

/-- Lexicographic comparison of character lists, embedding JavaScript's
string `<`/`>` operators (code-unit-wise comparison; the timestamps
compared here are ASCII ISO strings, for which the two coincide). -/
def strLtB : List Char → List Char → Bool
  | [], [] => false
  | [], _ :: _ => true
  | _ :: _, [] => false
  | a :: as, b :: bs =>
    if a.toNat < b.toNat then true
    else if b.toNat < a.toNat then false
    else strLtB as bs

/-- JavaScript string comparison `s < t`. -/
def jsStrLt (s t : String) : Prop := strLtB s.data t.data = true

instance (s t : String) : Decidable (jsStrLt s t) := by
  unfold jsStrLt; infer_instance

/-- Guard flags checked at the top of the polling callback:
`isImportingRef.current`, `syncStatus.isSyncing`, and a pending debounce
timer (`syncTimerRef.current`). -/
structure PollFlags where
  importing : Bool
  syncing : Bool
  timerPending : Bool
deriving DecidableEq, Repr

/-- Guard of the polling callback: the overwrite happens exactly when no
skip flag is set, a payload arrived, it has `meta` with a truthy
`exportedAt` string (a JavaScript empty string is falsy), and that string
compares strictly greater than the recorded local modification time
(JavaScript `>` on strings, i.e. lexicographic comparison). -/
def pollGuard (st : AppState) (flags : PollFlags) (cloud : Option SyncPayload) :
    Option (SyncPayload × String) :=
  if flags.importing || flags.syncing then none
  else if flags.timerPending then none
  else
    match cloud with
    | none => none
    | some d =>
      match d.meta with
      | none => none
      | some m =>
        match m.exportedAt with
        | none => none
        | some ts =>
          if ts = "" then none
          else if jsStrLt st.lastLocal ts then some (d, ts)
          else none

/-- One execution of the polling callback body: when the guard fires,
events and weight are overwritten unconditionally
(`setEvents(cloudData.events || [])`, `setWeight(cloudData.weight ?? 70.0)`)
and the local modification time is advanced to the cloud time; in every
other outcome the local state is untouched. -/
def pollStep (st : AppState) (flags : PollFlags) (cloud : Option SyncPayload) : AppState :=
  match pollGuard st flags cloud with
  | some (d, ts) =>
      { events := d.events.getD []
        weight := cloudWeight d.weight
        lastLocal := ts }
  | none => st

/-! ### Concrete records used by counterexamples and witnesses -/

/-- Imported item that is a well-formed object with a valid route, a
finite timestamp, and a finite but negative dose. -/
def badImport : RawItem :=
  { isObject := true, route := some Route.oral, timeH := some 0,
    doseMG := some (-5), ester := some Ester.E2,
    hasStringId := true, idString := "a", extras := some [] }

/-- Imported item that fails the object test. -/
def nonObjectImport : RawItem :=
  { isObject := false, route := none, timeH := none, doseMG := none,
    ester := none, hasStringId := false, idString := "", extras := none }

/-- Imported item with valid route, finite timestamp and positive dose. -/
def goodImport : RawItem :=
  { isObject := true, route := some Route.oral, timeH := some 2,
    doseMG := some 3, ester := some Ester.E2,
    hasStringId := true, idString := "b", extras := some [] }

/-- The event `goodImport` sanitises to. -/
def goodImportEvent : DoseEvent :=
  { id := "b", route := Route.oral, timeH := 2, doseMG := 3,
    ester := Ester.E2, extras := [] }

/-! ### Helper lemmas -/

/-- Replacing events whose id matches `e.id` leaves the sublist of events
with a different id untouched. -/
theorem saveMap_filter_ne (e : DoseEvent) (l : List DoseEvent) :
    (l.map (fun p => if p.id = e.id then e else p)).filter
        (fun p => p.id ≠ e.id) =
      l.filter (fun p => p.id ≠ e.id) := by
  induction l with
  | nil => rfl
  | cons p rest ih =>
    simp only [ne_eq, decide_not] at ih ⊢
    by_cases hid : p.id = e.id
    · simp [List.filter_cons, hid, ih]
    · simp [List.filter_cons, hid, ih]

/-- Elimination form of `pollGuard`: when the guard fires, every skip
flag is clear, a payload is present, it carries a truthy `exportedAt`
string, and that string is strictly greater than the local modification
time. -/
theorem pollGuard_some_elim {st : AppState} {flags : PollFlags}
    {cloud : Option SyncPayload} {d : SyncPayload} {ts : String}
    (hg : pollGuard st flags cloud = some (d, ts)) :
    flags.importing = false ∧ flags.syncing = false ∧
      flags.timerPending = false ∧ cloud = some d ∧
      ∃ m, d.meta = some m ∧ m.exportedAt = some ts ∧ jsStrLt st.lastLocal ts := by
  unfold pollGuard at hg
  by_cases h1 : (flags.importing || flags.syncing) = true
  · rw [if_pos h1] at hg; cases hg
  · rw [if_neg h1] at hg
    rw [Bool.or_eq_true] at h1
    push_neg at h1
    by_cases h2 : flags.timerPending = true
    · rw [if_pos h2] at hg; cases hg
    · rw [if_neg h2] at hg
      cases cloud with
      | none => cases hg
      | some d0 =>
        dsimp only at hg
        cases hm : d0.meta with
        | none => rw [hm] at hg; cases hg
        | some m =>
          rw [hm] at hg
          dsimp only at hg
          cases hts : m.exportedAt with
          | none => rw [hts] at hg; cases hg
          | some ts0 =>
            rw [hts] at hg
            dsimp only at hg
            by_cases he : ts0 = ""
            · rw [if_pos he] at hg; cases hg
            · rw [if_neg he] at hg
              by_cases hlt : jsStrLt st.lastLocal ts0
              · rw [if_pos hlt] at hg
                injection hg with h
                injection h with hd hts1
                subst hd; subst hts1
                exact ⟨Bool.not_eq_true _ ▸ h1.1, Bool.not_eq_true _ ▸ h1.2,
                  Bool.not_eq_true _ ▸ h2, rfl, m, hm, hts, hlt⟩
              · rw [if_neg hlt] at hg; cases hg

/-! ### Claim theorems about the App component -/

/-- Claim C9: saving an event with `handleSaveEvent` replaces, in place,
every stored event with the same id (leaving the length unchanged), or
appends the event when no stored event has its id; in both cases every
stored event with a different id is kept unchanged, in value and in
relative position. -/
theorem handleSaveEvent_replaces_or_appends (prev : List DoseEvent) (e : DoseEvent) :
    ((∃ p ∈ prev, p.id = e.id) →
        handleSaveEvent prev e = prev.map (fun p => if p.id = e.id then e else p) ∧
        (handleSaveEvent prev e).length = prev.length) ∧
    ((∀ p ∈ prev, p.id ≠ e.id) → handleSaveEvent prev e = prev ++ [e]) ∧
    (handleSaveEvent prev e).filter (fun p => p.id ≠ e.id) =
      prev.filter (fun p => p.id ≠ e.id) := by
  refine ⟨?_, ?_, ?_⟩
  · intro h
    have hany : prev.any (fun p => p.id = e.id) = true := by
      rw [List.any_eq_true]
      obtain ⟨p, hp, hid⟩ := h
      exact ⟨p, hp, by simpa using hid⟩
    rw [handleSaveEvent, if_pos hany]
    exact ⟨rfl, (List.length_map _ _).symm ▸ rfl⟩
  · intro h
    have hany : prev.any (fun p => p.id = e.id) = false := by
      rw [Bool.eq_false_iff]
      intro hc
      rw [List.any_eq_true] at hc
      obtain ⟨p, hp, hid⟩ := hc
      exact h p hp (by simpa using hid)
    rw [handleSaveEvent, hany]
    rfl
  · rw [handleSaveEvent]
    by_cases hany : prev.any (fun p => p.id = e.id) = true
    · rw [if_pos hany]
      exact saveMap_filter_ne e prev
    · rw [if_neg hany]
      simp [List.filter_append]

/-- Claim C9 witness: a concrete replace case and a concrete append
case. -/
theorem handleSaveEvent_replaces_or_appends_witness :
    (handleSaveEvent [goodImportEvent] { goodImportEvent with doseMG := 4 } =
        [{ goodImportEvent with doseMG := 4 }] ∧
      (handleSaveEvent [goodImportEvent] { goodImportEvent with doseMG := 4 }).length =
        [goodImportEvent].length) ∧
    handleSaveEvent [goodImportEvent] { goodImportEvent with id := "c" } =
      [goodImportEvent, { goodImportEvent with id := "c" }] := by
  constructor
  · have h := (handleSaveEvent_replaces_or_appends [goodImportEvent]
      { goodImportEvent with doseMG := 4 }).1 ⟨goodImportEvent, by decide, by decide⟩
    exact ⟨by rw [h.1]; decide, h.2⟩
  · exact (handleSaveEvent_replaces_or_appends [goodImportEvent]
      { goodImportEvent with id := "c" }).2.1 (by decide)

/-- Claim C6 counterexample: a sanitised imported item can carry a
strictly negative dose mass, because the sanitiser replaces a non-finite
dose by 0 but keeps any finite value, negative ones included. -/
theorem sanitize_keeps_negative_dose :
    (sanitizeImportedEvents "u" [badImport]).map DoseEvent.doseMG = [-5] ∧
      ((-5 : ℚ) < 0) := by decide

/-- Claim C6 (amended): every event produced by `sanitizeImportedEvents`
comes from an imported object with a valid route and a finite timestamp,
and its dose mass is the imported finite dose (0 when the imported dose
is not finite, with no sign restriction); items that are not objects, or
whose route is invalid, or whose timestamp is not finite, are dropped
rather than repaired. -/
theorem sanitize_invariant_amended (uuid : String) :
    (∀ raw e, e ∈ sanitizeImportedEvents uuid raw →
        ∃ item ∈ raw, item.isObject = true ∧ item.route = some e.route ∧
          item.timeH = some e.timeH ∧ e.doseMG = item.doseMG.getD 0) ∧
    (∀ item, (item.isObject = false ∨ item.route = none ∨ item.timeH = none) →
        sanitizeItem uuid item = none) := by
  constructor
  · intro raw e he
    rw [sanitizeImportedEvents, List.mem_filterMap] at he
    obtain ⟨item, hmem, hsan⟩ := he
    refine ⟨item, hmem, ?_⟩
    rw [sanitizeItem] at hsan
    by_cases hobj : item.isObject = false
    · rw [if_pos hobj] at hsan; cases hsan
    · rw [if_neg hobj] at hsan
      cases hr : item.route with
      | none => rw [hr] at hsan; cases hsan
      | some r =>
        rw [hr] at hsan
        cases ht : item.timeH with
        | none => rw [ht] at hsan; cases hsan
        | some tv =>
          rw [ht] at hsan
          have hev := Option.some.inj hsan
          subst hev
          refine ⟨?_, rfl, rfl, rfl⟩
          cases hb : item.isObject with
          | false => exact absurd hb hobj
          | true => rfl
  · intro item h
    rcases h with h | h | h
    · rw [sanitizeItem, if_pos h]
    · rcases hr : item.route with _ | r
      · simp [sanitizeItem, hr]
      · rw [h] at hr; cases hr
    · rcases hr : item.route with _ | r
      · simp [sanitizeItem, hr]
      · simp [sanitizeItem, hr, h]

/-- Claim C6 witness: the amended theorem applied at a concrete good
item and at a concrete dropped item. -/
theorem sanitize_invariant_amended_witness :
    (∃ item ∈ [goodImport], item.isObject = true ∧
        item.route = some goodImportEvent.route ∧
        item.timeH = some goodImportEvent.timeH ∧
        goodImportEvent.doseMG = item.doseMG.getD 0) ∧
    sanitizeItem "u" nonObjectImport = none :=
  ⟨(sanitize_invariant_amended "u").1 [goodImport] goodImportEvent (by decide),
   (sanitize_invariant_amended "u").2 nonObjectImport (Or.inl rfl)⟩

/-- Claim C7 counterexample: the cloud weight update path accepts the
cloud value without a positivity check, so a cloud payload carrying
weight 0 sets the stored weight to 0. -/
theorem cloudWeight_zero_counterexample :
    cloudWeight (some 0) = 0 ∧ ¬ ((0 : ℚ) < cloudWeight (some 0)) := by decide

/-- Claim C7 (amended): the file-import path keeps the stored weight
strictly positive (it only accepts a parsed weight that is a number
greater than 0); the cloud paths (initial cloud load, enabling sync,
cloud import, periodic polling) instead overwrite the weight with the
cloud payload's numeric value whenever one is present, defaulting to
70.0 when absent, so they preserve positivity only when the cloud value
is itself positive. -/
theorem weight_positivity_amended (old : ℚ) (parsedWeight cloudValue : Option ℚ)
    (hold : 0 < old) (hcloud : ∀ x, cloudValue = some x → 0 < x) :
    0 < processImportedWeight old parsedWeight ∧
      cloudWeight cloudValue = cloudValue.getD 70 ∧
      0 < cloudWeight cloudValue := by
  refine ⟨?_, rfl, ?_⟩
  · cases parsedWeight with
    | none => exact hold
    | some w =>
      simp only [processImportedWeight]
      by_cases hw : 0 < w
      · rw [if_pos hw]; exact hw
      · rw [if_neg hw]; exact hold
  · cases cloudValue with
    | none => decide
    | some x => exact hcloud x rfl

/-- Claim C7 witness: the amended theorem at weight 70, with no parsed
file weight and a positive cloud weight. -/
theorem weight_positivity_amended_witness :
    0 < processImportedWeight 70 none ∧
      cloudWeight (some 55) = (some (55 : ℚ)).getD 70 ∧
      0 < cloudWeight (some 55) :=
  weight_positivity_amended 70 none (some 55) (by decide)
    (fun x hx => Option.some.inj hx ▸ (by decide : (0 : ℚ) < 55))

/-- Claim C10: the polling callback overwrites the local events and
weight only when the cloud payload carries a `meta.exportedAt` string
that compares strictly greater (string comparison) than the last
recorded local modification time (and no skip flag is set); in every
other poll outcome the local events and weight are unchanged, and when
the overwrite happens the new values are exactly the cloud ones. -/
theorem pollStep_overwrites_only_when_newer (st : AppState) (flags : PollFlags)
    (cloud : Option SyncPayload)
    (hchange : (pollStep st flags cloud).events ≠ st.events ∨
      (pollStep st flags cloud).weight ≠ st.weight) :
    flags.importing = false ∧ flags.syncing = false ∧
      flags.timerPending = false ∧
      ∃ d, cloud = some d ∧
        ∃ m, d.meta = some m ∧
          ∃ ts, m.exportedAt = some ts ∧ jsStrLt st.lastLocal ts ∧
            (pollStep st flags cloud).events = d.events.getD [] ∧
            (pollStep st flags cloud).weight = cloudWeight d.weight ∧
            (pollStep st flags cloud).lastLocal = ts := by
  cases hg : pollGuard st flags cloud with
  | none =>
    rw [pollStep, hg] at hchange
    rcases hchange with h | h
    · exact absurd rfl h
    · exact absurd rfl h
  | some p =>
    obtain ⟨d, ts⟩ := p
    obtain ⟨h1, h2, h3, hc, m, hm, hts, hlt⟩ := pollGuard_some_elim hg
    exact ⟨h1, h2, h3, d, hc, m, hm, ts, hts, hlt,
      by rw [pollStep, hg], by rw [pollStep, hg], by rw [pollStep, hg]⟩

/-- Local state used by the claim C10 witness. -/
def pollStateEx : AppState := ⟨[], 70, "2024-01-01"⟩

/-- Flags used by the claim C10 witness: nothing pending. -/
def pollFlagsEx : PollFlags := ⟨false, false, false⟩

/-- Cloud payload used by the claim C10 witness: exported one day after
the local modification time. -/
def pollCloudEx : Option SyncPayload :=
  some ⟨some ⟨some "2024-01-02"⟩, some [goodImportEvent], some 60⟩

/-- Claim C10 witness: a concrete poll where the cloud time is strictly
newer, the events change, and the theorem's conclusion holds. -/
theorem pollStep_overwrites_only_when_newer_witness :
    ((pollStep pollStateEx pollFlagsEx pollCloudEx).events ≠ pollStateEx.events ∨
      (pollStep pollStateEx pollFlagsEx pollCloudEx).weight ≠ pollStateEx.weight) ∧
    (pollFlagsEx.importing = false ∧ pollFlagsEx.syncing = false ∧
      pollFlagsEx.timerPending = false ∧
      ∃ d, pollCloudEx = some d ∧
        ∃ m, d.meta = some m ∧
          ∃ ts, m.exportedAt = some ts ∧ jsStrLt pollStateEx.lastLocal ts ∧
            (pollStep pollStateEx pollFlagsEx pollCloudEx).events = d.events.getD [] ∧
            (pollStep pollStateEx pollFlagsEx pollCloudEx).weight = cloudWeight d.weight ∧
            (pollStep pollStateEx pollFlagsEx pollCloudEx).lastLocal = ts) :=
  ⟨Or.inl (by decide),
   pollStep_overwrites_only_when_newer pollStateEx pollFlagsEx pollCloudEx
     (Or.inl (by decide))⟩

/-! ### Pharmacokinetic engine

The engine file (`logic.ts`, exporting `runSimulation`,
`interpolateConcentration`, `getToE2Factor`, the `KineticModel` family and
the parameter table) is not among the available sources; the definitions
in this section are modelled from the specification (sections 3 and
4.1-4.6) and say so in their doc comments. -/

/-- Modelled from the spec: the `KineticModel` tagged variant of section 3
(the concrete parameter values live in the swappable parameter table, not
here).  `firstOrder` carries bioavailability, absorption rate, elimination
rate and volume of distribution; `depot` carries the fast/slow split
fraction, the two absorption rates, the shared elimination rate and the
volume; `patch` carries the release rate, the elimination rate, the
volume and the end of the active window. -/
inductive KineticModel where
  | firstOrder (bio ka ke vd : ℝ)
  | depot (frac ka1 ka2 ke vd : ℝ)
  | patch (rate ke vd tOff : ℝ)

/-- Modelled from the spec: the standard single-dose first-order formula
of section 4.3, with the removable-singularity limit form when the
absorption and elimination rate constants are numerically equal (direct
substitution would divide by zero). -/
noncomputable def foConc (bio ka ke vd mass t : ℝ) : ℝ :=
  if ka = ke then bio * mass * ka * t * Real.exp (-(ka * t)) / vd
  else bio * mass * ka / (vd * (ka - ke)) *
    (Real.exp (-(ke * t)) - Real.exp (-(ka * t)))

/-- Modelled from the spec: the Contribution Function of section 4.3.
Zero before the event; first-order and two-phase depot variants via
`foConc`; zero-order patch release rising toward steady state during the
active window, then exponential decay continuous at the switch-off
instant.  Patch apply/remove pairing (section 4.4) enters through the
`tOff` field resolved upstream; a `patchRemove` event itself resolves to
no model and contributes nothing. -/
noncomputable def contribution (m : KineticModel) (mass t : ℝ) : ℝ :=
  if t < 0 then 0
  else
    match m with
    | .firstOrder bio ka ke vd => foConc bio ka ke vd mass t
    | .depot frac ka1 ka2 ke vd =>
        frac * foConc 1 ka1 ke vd mass t + (1 - frac) * foConc 1 ka2 ke vd mass t
    | .patch rate ke vd tOff =>
        if t ≤ tOff then rate / (vd * ke) * (1 - Real.exp (-(ke * t)))
        else rate / (vd * ke) * (1 - Real.exp (-(ke * tOff))) *
          Real.exp (-(ke * (t - tOff)))

/-- Sanity conditions on a model's coefficients, as the spec states them:
rates and volumes are positive, the bioavailability fraction and the
fast/slow split are in range, the release rate and the active window are
non-negative. -/
def KineticModel.wellFormed : KineticModel → Prop
  | .firstOrder bio ka ke vd => 0 ≤ bio ∧ 0 < ka ∧ 0 < ke ∧ 0 < vd
  | .depot frac ka1 ka2 ke vd =>
      0 ≤ frac ∧ frac ≤ 1 ∧ 0 < ka1 ∧ 0 < ka2 ∧ 0 < ke ∧ 0 < vd
  | .patch rate ke vd tOff => 0 ≤ rate ∧ 0 < ke ∧ 0 < vd ∧ 0 ≤ tOff

/-- Modelled from the spec: an engine-side dose event (section 3), with
real-valued hours and the optional patch release rate from the extras
map. -/
structure PKEvent where
  route : Route
  ester : Ester
  doseMG : ℝ
  timeH : ℝ
  releaseRate : Option ℝ

/-- Modelled from the spec: the swappable parameter table behind the
Parameter Resolver (section 4.1) and Unit Normalizer (section 4.2).
`resolve` returns `none` for an `UnsupportedCombination`; `toE2` is the
fixed per-substance molar-ratio factor. -/
structure ParamTable where
  resolve : Route → Ester → Option ℝ → ℝ → Option KineticModel
  toE2 : Ester → ℝ

/-- Modelled from the spec: the contribution of one event at absolute
time `t`: resolve the model (an unsupported combination is excluded and
contributes 0, the recommended policy of section 7), normalise the dose,
and evaluate the Contribution Function at the elapsed time. -/
noncomputable def contributionOfEvent (tab : ParamTable) (w : ℝ) (e : PKEvent)
    (t : ℝ) : ℝ :=
  match tab.resolve e.route e.ester e.releaseRate w with
  | none => 0
  | some m => contribution m (tab.toE2 e.ester * e.doseMG) (t - e.timeH)

/-- Modelled from the spec: fixed grid-resolution trade-off of section
4.5 — the number of sample intervals and the forward lookahead horizon. -/
structure SimConfig where
  samples : ℕ
  horizon : ℝ

/-- Modelled from the spec: the sample grid of section 4.5, spanning from
the earliest event (or now, whichever is earlier) to the latest event (or
now) plus the lookahead horizon, at the fixed resolution. -/
noncomputable def buildGrid (cfg : SimConfig) (now : ℝ) (events : List PKEvent) :
    List ℝ :=
  let start := (events.map PKEvent.timeH).foldr min now
  let stop := (events.map PKEvent.timeH).foldr max now + cfg.horizon
  let step := (stop - start) / cfg.samples
  (List.range (cfg.samples + 1)).map (fun i => start + i * step)

/-- Simulation result: ordered (time, concentration) samples, generic in
the number type so the same definition serves the real-valued engine and
executable rational instances. -/
structure SimResult (α : Type) where
  samples : List (α × α)

/-- Modelled from the spec: the Superposition Sampler `runSimulation` of
section 4.5 — at each grid point, the concentrations contributed by every
event are summed (linear superposition) and the grid is packaged as the
immutable result. -/
noncomputable def runSimulation (cfg : SimConfig) (tab : ParamTable)
    (events : List PKEvent) (w : ℝ) (now : ℝ) : SimResult ℝ :=
  ⟨(buildGrid cfg now events).map
    (fun t => (t, (events.map (fun e => contributionOfEvent tab w e t)).sum))⟩

/-- Modelled from the spec: a sequence of engine calls, each an event
list and a weight.  The engine holds no state, so a call history is just
a map; this is the object the purity claim quantifies over. -/
noncomputable def runCalls (cfg : SimConfig) (tab : ParamTable) (now : ℝ)
    (calls : List (List PKEvent × ℝ)) : List (SimResult ℝ) :=
  calls.map (fun c => runSimulation cfg tab c.1 c.2 now)

/-- Modelled from the spec: the bracket search of the Point Query
(section 4.6), written as a scan over adjacent sample pairs (observably
the same bracketing pair the binary search locates on a sorted grid). -/
def findBracket {α : Type} [LinearOrder α] :
    List (α × α) → α → Option ((α × α) × (α × α))
  | p :: q :: rest, x =>
      if p.1 ≤ x ∧ x ≤ q.1 then some (p, q) else findBracket (q :: rest) x
  | _, _ => none

/-- Modelled from the spec: `interpolateConcentration` of section 4.6 —
locate the bracketing sample pair and linearly interpolate; `none` when
the query lies outside the grid's covered range. -/
def interpolateConcentration {α : Type} [LinearOrderedField α]
    (res : SimResult α) (q : α) : Option α :=
  match findBracket res.samples q with
  | none => none
  | some (p0, p1) =>
      if p1.1 = p0.1 then some p0.2
      else some (p0.2 + (p1.2 - p0.2) * ((q - p0.1) / (p1.1 - p0.1)))

/-- Simulation state kept by the App (lines 305-312): a simulation is run
only when the event list is non-empty, otherwise the state is `null`. -/
noncomputable def simulationState (cfg : SimConfig) (tab : ParamTable)
    (now : ℝ) (events : List PKEvent) (w : ℝ) : Option (SimResult ℝ) :=
  if 0 < events.length then some (runSimulation cfg tab events w now) else none

/-- Displayed current level (App lines 314-318): 0 when no simulation is
held, otherwise the interpolated concentration with 0 substituted for an
unavailable query. -/
noncomputable def currentLevel (sim : Option (SimResult ℝ)) (h : ℝ) : ℝ :=
  match sim with
  | none => 0
  | some s => (interpolateConcentration s h).getD 0

/-! ### Helper lemmas for the engine theorems -/

/-- Non-negativity of the first-order formula, both branches: in the
general branch the exponential difference and the rate-difference
denominator always share a sign. -/
theorem foConc_nonneg {bio ka ke vd mass t : ℝ} (hbio : 0 ≤ bio) (hka : 0 < ka)
    (_hke : 0 < ke) (hvd : 0 < vd) (hmass : 0 ≤ mass) (ht : 0 ≤ t) :
    0 ≤ foConc bio ka ke vd mass t := by
  rw [foConc]
  by_cases heq : ka = ke
  · rw [if_pos heq]
    apply div_nonneg _ hvd.le
    exact mul_nonneg (mul_nonneg (mul_nonneg (mul_nonneg hbio hmass) hka.le) ht)
      (Real.exp_pos _).le
  · rw [if_neg heq]
    have hnum : 0 ≤ bio * mass * ka := mul_nonneg (mul_nonneg hbio hmass) hka.le
    rcases lt_or_gt_of_ne heq with hlt | hgt
    · have hden : vd * (ka - ke) < 0 :=
        mul_neg_of_pos_of_neg hvd (sub_neg.mpr hlt)
      have hfac1 : bio * mass * ka / (vd * (ka - ke)) ≤ 0 :=
        div_nonpos_of_nonneg_of_nonpos hnum hden.le
      have hfac2 : Real.exp (-(ke * t)) - Real.exp (-(ka * t)) ≤ 0 := by
        apply sub_nonpos.mpr
        apply Real.exp_le_exp.mpr
        have := mul_le_mul_of_nonneg_right hlt.le ht
        linarith
      have hprod := mul_nonneg (neg_nonneg.mpr hfac1) (neg_nonneg.mpr hfac2)
      rwa [neg_mul_neg] at hprod
    · have hden : 0 < vd * (ka - ke) := mul_pos hvd (sub_pos.mpr hgt)
      have hfac2 : 0 ≤ Real.exp (-(ke * t)) - Real.exp (-(ka * t)) := by
        apply sub_nonneg.mpr
        apply Real.exp_le_exp.mpr
        have := mul_le_mul_of_nonneg_right hgt.le ht
        linarith
      exact mul_nonneg (div_nonneg hnum hden.le) hfac2

/-- An exponential of a non-positive argument is at most one, stated in
the form the patch branches need. -/
theorem one_sub_exp_neg_nonneg {ke t : ℝ} (hke : 0 ≤ ke) (ht : 0 ≤ t) :
    0 ≤ 1 - Real.exp (-(ke * t)) := by
  apply sub_nonneg.mpr
  rw [show (1 : ℝ) = Real.exp 0 from (Real.exp_zero).symm]
  exact Real.exp_le_exp.mpr (neg_nonpos.mpr (mul_nonneg hke ht))

/-- The bracket scan finds nothing when the query lies strictly before
every sample time or strictly after every sample time. -/
theorem findBracket_none_of_outside {α : Type} [LinearOrder α]
    (l : List (α × α)) (x : α)
    (h : (∀ p ∈ l, x < p.1) ∨ (∀ p ∈ l, p.1 < x)) :
    findBracket l x = none := by
  induction l with
  | nil => rfl
  | cons p rest ih =>
    cases rest with
    | nil => rfl
    | cons q rest2 =>
      rw [findBracket]
      rcases h with h | h
      · rw [if_neg (fun hc => absurd hc.1 (not_le.mpr (h p (by simp))))]
        exact ih (Or.inl fun r hr => h r (List.mem_cons_of_mem p hr))
      · rw [if_neg (fun hc => absurd hc.2 (not_le.mpr (h q (by simp))))]
        exact ih (Or.inr fun r hr => h r (List.mem_cons_of_mem p hr))

/-! ### Claim theorems about the engine -/

/-- Claim C1: linear superposition — for every parameter table, grid
configuration, weight and pair of events, the simulation result of the
two-event list carries, at each sampled time, exactly the sum of the two
events' contributions evaluated independently at that time (exact
equality in the real-number model, hence within any numeric tolerance). -/
theorem runSimulation_superposition (cfg : SimConfig) (tab : ParamTable)
    (w now : ℝ) (e1 e2 : PKEvent) :
    (runSimulation cfg tab [e1, e2] w now).samples =
      (buildGrid cfg now [e1, e2]).map
        (fun t => (t, contributionOfEvent tab w e1 t + contributionOfEvent tab w e2 t)) := by
  simp [runSimulation]

/-- Claim C3: for every kinetic model and mass, the contribution at a
strictly negative elapsed time is exactly 0 — an event contributes
nothing before it occurs. -/
theorem contribution_zero_before_event (m : KineticModel) (mass t : ℝ)
    (ht : t < 0) : contribution m mass t = 0 := by
  cases m <;> simp [contribution, ht]

/-- Claim C3 witness: the contribution of a concrete first-order model
one hour before its event is 0. -/
theorem contribution_zero_before_event_witness :
    ((-1 : ℝ) < 0) ∧ contribution (KineticModel.firstOrder 1 1 1 1) 1 (-1) = 0 :=
  ⟨neg_one_lt_zero,
   contribution_zero_before_event (KineticModel.firstOrder 1 1 1 1) 1 (-1)
     neg_one_lt_zero⟩

/-- Claim C2: for every well-formed kinetic model, non-negative
equivalent mass and non-negative elapsed time, the contribution is a
(finite) real number that is non-negative; and when the absorption and
elimination rate constants of the first-order model are numerically
equal, the value is the removable-singularity limit form rather than the
general formula's division by zero — so no `NaN`/`Inf` can reach a
caller. -/
theorem contribution_nonneg_and_equal_rate_limit (m : KineticModel)
    (mass t : ℝ) (hm : m.wellFormed) (hmass : 0 ≤ mass) (ht : 0 ≤ t) :
    0 ≤ contribution m mass t ∧
      (∀ bio ka ke vd, m = KineticModel.firstOrder bio ka ke vd → ka = ke →
        contribution m mass t = bio * mass * ka * t * Real.exp (-(ka * t)) / vd) := by
  constructor
  · cases m with
    | firstOrder bio ka ke vd =>
      obtain ⟨hbio, hka, hke, hvd⟩ := hm
      rw [contribution, if_neg (not_lt.mpr ht)]
      exact foConc_nonneg hbio hka hke hvd hmass ht
    | depot frac ka1 ka2 ke vd =>
      obtain ⟨hfrac0, hfrac1, hka1, hka2, hke, hvd⟩ := hm
      rw [contribution, if_neg (not_lt.mpr ht)]
      exact add_nonneg
        (mul_nonneg hfrac0 (foConc_nonneg zero_le_one hka1 hke hvd hmass ht))
        (mul_nonneg (sub_nonneg.mpr hfrac1)
          (foConc_nonneg zero_le_one hka2 hke hvd hmass ht))
    | patch rate ke vd tOff =>
      obtain ⟨hrate, hke, hvd, htOff⟩ := hm
      rw [contribution, if_neg (not_lt.mpr ht)]
      have hbase : 0 ≤ rate / (vd * ke) :=
        div_nonneg hrate (mul_pos hvd hke).le
      by_cases hto : t ≤ tOff
      · rw [if_pos hto]
        exact mul_nonneg hbase (one_sub_exp_neg_nonneg hke.le ht)
      · rw [if_neg hto]
        exact mul_nonneg (mul_nonneg hbase (one_sub_exp_neg_nonneg hke.le htOff))
          (Real.exp_pos _).le
  · intro bio ka ke vd hmeq heq
    subst hmeq
    rw [contribution, if_neg (not_lt.mpr ht)]
    rw [foConc, if_pos heq]

/-- Claim C2 witness: a concrete first-order model with equal rate
constants, unit mass and one elapsed hour. -/
theorem contribution_nonneg_and_equal_rate_limit_witness :
    (KineticModel.firstOrder 1 1 1 1).wellFormed ∧ ((0 : ℝ) ≤ 1) ∧
      (0 ≤ contribution (KineticModel.firstOrder 1 1 1 1) 1 1 ∧
        (∀ bio ka ke vd,
          KineticModel.firstOrder 1 1 1 1 = KineticModel.firstOrder bio ka ke vd →
          ka = ke →
          contribution (KineticModel.firstOrder 1 1 1 1) 1 1 =
            bio * 1 * ka * 1 * Real.exp (-(ka * 1)) / vd)) :=
  ⟨⟨zero_le_one, zero_lt_one, zero_lt_one, zero_lt_one⟩, zero_le_one,
   contribution_nonneg_and_equal_rate_limit (KineticModel.firstOrder 1 1 1 1) 1 1
     ⟨zero_le_one, zero_lt_one, zero_lt_one, zero_lt_one⟩ zero_le_one zero_le_one⟩

/-- Claim C4: when the query time lies strictly outside the grid's
covered time range (before every sample or after every sample), the
interpolator answers `none` — an explicit unavailable signal, never an
extrapolated value. -/
theorem interpolate_outside_grid_none {α : Type} [LinearOrderedField α]
    (res : SimResult α) (q : α)
    (h : (∀ p ∈ res.samples, q < p.1) ∨ (∀ p ∈ res.samples, p.1 < q)) :
    interpolateConcentration res q = none := by
  rw [interpolateConcentration, findBracket_none_of_outside res.samples q h]

/-- Sample grid used by the claim C4 witness. -/
def gridEx : SimResult ℚ := ⟨[(0, 1), (1, 2)]⟩

/-- Claim C4 witness: querying far to the right of a concrete two-point
grid yields `none`. -/
theorem interpolate_outside_grid_none_witness :
    (∀ p ∈ gridEx.samples, p.1 < (5 : ℚ)) ∧
      interpolateConcentration gridEx 5 = none :=
  ⟨by decide, interpolate_outside_grid_none gridEx 5 (Or.inr (by decide))⟩

/-- Claim C5: for an empty dose-event list the application runs no
simulation (the stored simulation is `null`) and the displayed current
level is 0, for every query time, weight, parameter table and grid
configuration. -/
theorem empty_events_level_zero (cfg : SimConfig) (tab : ParamTable)
    (now w h : ℝ) :
    simulationState cfg tab now [] w = none ∧
      currentLevel (simulationState cfg tab now [] w) h = 0 := by
  constructor
  · rw [simulationState, if_neg (by simp)]
  · rw [simulationState, if_neg (by simp)]
    rfl

/-- Claim C8: the engine is a pure, deterministic function of its inputs
— in any two call histories ending with the same call, the last result is
identical (and equals the single-call result), independent of all prior
calls. -/
theorem runSimulation_pure (cfg : SimConfig) (tab : ParamTable) (now : ℝ)
    (prior1 prior2 : List (List PKEvent × ℝ)) (call : List PKEvent × ℝ) :
    (runCalls cfg tab now (prior1 ++ [call])).getLast? =
        some (runSimulation cfg tab call.1 call.2 now) ∧
      (runCalls cfg tab now (prior1 ++ [call])).getLast? =
        (runCalls cfg tab now (prior2 ++ [call])).getLast? := by
  have hlast : ∀ (l : List (SimResult ℝ)) (a : SimResult ℝ),
      (l ++ [a]).getLast? = some a := by
    intro l a
    exact List.getLast?_concat l
  constructor
  · rw [runCalls, List.map_append, List.map_cons, List.map_nil, hlast]
  · rw [runCalls, List.map_append, List.map_cons, List.map_nil, hlast,
      runCalls, List.map_append, List.map_cons, List.map_nil, hlast]

end HRT
